import Mathlib

set_option linter.unusedVariables false

/-!
Shallow embedding of the WebsiteChecker core (src/WebsiteChecker/src/main.rs).

The network and the clocks are effects: each invocation of the HTTP call
consumes a CallOutcome describing what the call returned.  The concurrent
dispatcher (monitor_websites) is embedded as a small-step scheduler over an
explicit pool state: the mutex-protected URL queue, the phase of each worker
thread, the result channel contents, and a log of dequeue events.  A schedule
(list of atomic actions) resolves the interleaving; theorems quantify over all
schedules.
-/

/-- Lowercasing, modelling the Rust to_lowercase and eq_ignore_ascii_case
conventions on the basic latin letters: each character is mapped to its lower
case form. -/
def lowerStr (s : String) : String :=
  String.mk (s.toList.map Char.toLower)

/-- Substring containment, modelling Rust str.contains for string patterns:
true iff pat occurs contiguously in s. -/
def containsSub (s pat : String) : Bool :=
  (List.range (s.length + 1)).any fun i =>
    ((s.toList.drop i).take pat.toList.length) == pat.toList

/-- Model of a completed ureq HTTP response: the numeric status code (a u16 in
the source) and the response headers as name-value pairs in arrival order. -/
structure Response where
  status : Nat
  headers : List (String × String)
deriving Repr, DecidableEq

/-- Header lookup, modelling the ureq Response.header method: the header name
is matched case-insensitively and the first matching value is returned. -/
def Response.header (r : Response) (name : String) : Option String :=
  (r.headers.find? fun p => lowerStr p.1 == lowerStr name).map Prod.snd

/-- Embeds validate_headers (main.rs lines 23-30): look up Content-Type, then
test whether the lowercased value contains "application/json"; absent header
gives false (unwrap_or(false)). -/
def validate_headers (response : Response) : Bool :=
  ((response.header "Content-Type").map fun content_type =>
      containsSub (lowerStr content_type) "application/json").getD false

/-- Modelled from the claim text, for comparison with validate_headers: a
Content-Type header is present (name matched case-insensitively) and its value
literally contains the substring "application/json" (no lowercasing of the
value). -/
def headersValidSpecLiteral (response : Response) : Bool :=
  match response.header "Content-Type" with
  | some content_type => containsSub content_type "application/json"
  | none => false

/-- Decidable equality for Except, needed to decide facts about concrete
WebsiteStatus values. -/
instance {ε α : Type} [DecidableEq ε] [DecidableEq α] :
    DecidableEq (Except ε α) := fun a b =>
  match a, b with
  | Except.ok x, Except.ok y =>
      if h : x = y then isTrue (by rw [h]) else isFalse (by intro hc; cases hc; exact h rfl)
  | Except.error x, Except.error y =>
      if h : x = y then isTrue (by rw [h]) else isFalse (by intro hc; cases hc; exact h rfl)
  | Except.ok _, Except.error _ => isFalse (by intro hc; cases hc)
  | Except.error _, Except.ok _ => isFalse (by intro hc; cases hc)

/-- Embeds the WebsiteStatus struct (main.rs lines 13-20).  Durations and
timestamps are abstracted to Nat tick counts. -/
structure WebsiteStatus where
  url : String
  status : Except String Nat
  response_time : Nat
  timestamp : Nat
  headers_valid : Bool
deriving Repr, DecidableEq

/-- The effects consumed by one invocation of website_checker: the outcome of
agent.get(url).timeout(timeout).call() - either a completed Response or a
transport-level error message - together with the elapsed time and the start
timestamp read from the clocks. -/
structure CallOutcome where
  call : Except String Response
  elapsed : Nat
  now : Nat
deriving Repr, DecidableEq

/-- Embeds website_checker (main.rs lines 33-66).  The default
Err("Request error") and headers_valid = false of lines 42-43 are overwritten
by the Ok arm and kept (with the message replaced) by the Err arm, exactly as
in the match of lines 46-55; the timeout parameter is consumed by the network
effect o. -/
def website_checker (url : String) (timeout : Nat) (o : CallOutcome) :
    WebsiteStatus :=
  let rb : Except String Nat × Bool :=
    match o.call with
    | Except.ok response => (Except.ok response.status, validate_headers response)
    | Except.error e =>
        (Except.error ("Request failed: " ++ e ++ " for URL " ++ url), false)
  { url := url, status := rb.1, response_time := o.elapsed,
    timestamp := o.now, headers_valid := rb.2 }

/-- The success test of the retry loop (main.rs line 100): the pattern
WebsiteStatus with status Ok(_). -/
def WebsiteStatus.isSuccess (s : WebsiteStatus) : Bool :=
  match s.status with
  | Except.ok _ => true
  | Except.error _ => false

/-- The retry loop body (main.rs lines 95-103), instrumented with an attempt
counter: runs website_checker at the current attempt index, stops on a Success
status or when no retries remain, and otherwise recurses on the next attempt.
Returns the final (last written) result and the number of website_checker
invocations issued.  net gives the network outcome of each attempt, attempt 0
being the initial try. -/
def retryFrom (url : String) (timeout : Nat) (net : Nat → CallOutcome)
    (attempt : Nat) : Nat → WebsiteStatus × Nat
  | 0 => (website_checker url timeout (net attempt), 1)
  | remaining + 1 =>
      let result := website_checker url timeout (net attempt)
      if result.isSuccess then (result, 1)
      else
        let rest := retryFrom url timeout net (attempt + 1) remaining
        (rest.1, rest.2 + 1)

/-- The retry wrapper: the for-loop over 0..=retries of main.rs lines 98-103,
started at attempt 0 with retries additional attempts allowed. -/
def check_with_retry (url : String) (timeout : Nat) (retries : Nat)
    (net : Nat → CallOutcome) : WebsiteStatus × Nat :=
  retryFrom url timeout net 0 retries

/-- The phase of one worker thread (main.rs lines 89-108) with respect to the
shared state: idle between loop iterations (about to lock the queue), busy on a
URL it has popped but whose result it has not yet sent, or done after having
observed an empty queue and left the loop. -/
inductive WPhase where
  | idle
  | busy (url : String)
  | done
deriving Repr, DecidableEq

/-- The URL a worker currently owns, if any. -/
def phaseUrl : WPhase → List String
  | WPhase.busy u => [u]
  | _ => []

/-- URLs currently owned by busy workers, in worker order. -/
def busyUrls : List WPhase → List String
  | [] => []
  | w :: ws => phaseUrl w ++ busyUrls ws

/-- The shared state of one monitor_websites run: the mutex-protected VecDeque
of pending URLs (line 79), the phase of each spawned worker, the results so
far sent on the mpsc channel (line 104), and a log of dequeue events as
(worker id, URL) pairs recording which worker popped which URL. -/
structure PoolState where
  queue : List String
  workers : List WPhase
  results : List WebsiteStatus
  popLog : List (Nat × String)
deriving Repr, DecidableEq

/-- An atomic action of the interleaved execution: worker wid acquires the
queue lock and runs pop_front (lines 91-94), or worker wid finishes its retry
loop and sends the result on the channel (lines 95-106). -/
inductive PoolAction where
  | pop (wid : Nat)
  | send (wid : Nat)
deriving Repr, DecidableEq

/-- One atomic step of the pool.  A pop by an idle worker removes the queue
front and makes the worker busy on it (logging the dequeue), or marks the
worker done when the queue is empty; a send by a busy worker appends the
check_with_retry result for its URL to the channel and returns the worker to
idle.  Actions by workers not in a matching phase (or with no such worker)
change nothing. -/
def step (net : String → Nat → CallOutcome) (timeout retries : Nat)
    (s : PoolState) : PoolAction → PoolState
  | PoolAction.pop wid =>
    match s.workers[wid]? with
    | some WPhase.idle =>
        match s.queue with
        | [] => { s with workers := s.workers.set wid WPhase.done }
        | u :: rest =>
            { s with queue := rest,
                     workers := s.workers.set wid (WPhase.busy u),
                     popLog := s.popLog ++ [(wid, u)] }
    | _ => s
  | PoolAction.send wid =>
    match s.workers[wid]? with
    | some (WPhase.busy u) =>
        { s with workers := s.workers.set wid WPhase.idle,
                 results := s.results ++
                   [(check_with_retry u timeout retries (net u)).1] }
    | _ => s

/-- The state at the start of a monitor_websites run: the queue holds the
input URLs (line 79), worker_num workers are spawned idle (lines 85-111), the
channel and the dequeue log are empty. -/
def initState (urls : List String) (worker_num : Nat) : PoolState :=
  { queue := urls, workers := List.replicate worker_num WPhase.idle,
    results := [], popLog := [] }

/-- Embeds monitor_websites (main.rs lines 69-123) as the pool state reached
from the initial state by executing a schedule of atomic actions; the
collected return value of the Rust function is the results field once the run
is complete.  net gives, per URL and per attempt index, the network outcome of
the corresponding website_checker call. -/
def monitor_websites (net : String → Nat → CallOutcome) (urls : List String)
    (worker_num : Nat) (timeout retries : Nat) (sched : List PoolAction) :
    PoolState :=
  sched.foldl (step net timeout retries) (initState urls worker_num)

/-- A run is complete when the queue has been drained and no worker still owns
a popped URL: this is the situation at the join barrier of lines 113-117,
after which the results are collected. -/
def complete (s : PoolState) : Prop :=
  s.queue = [] ∧ busyUrls s.workers = []

/-- A schedule in which worker 0 alone pops and sends n URLs. -/
def drainSched : Nat → List PoolAction
  | 0 => []
  | n + 1 => PoolAction.pop 0 :: PoolAction.send 0 :: drainSched n

/-- Concrete network behaviour for witnesses: every call is refused. -/
def wNet : String → Nat → CallOutcome :=
  fun u i => { call := Except.error "connection refused", elapsed := 1, now := 0 }

/-- Concrete per-attempt network behaviour for witnesses: attempt 0 is
refused, every later attempt completes with status 200. -/
def wNetFlaky : Nat → CallOutcome
  | 0 => { call := Except.error "connection refused", elapsed := 1, now := 0 }
  | _ + 1 => { call := Except.ok (Response.mk 200 []),
               elapsed := 2, now := 1 }

/-- Concrete response for the C6 counterexample: a Content-Type value in upper
case. -/
def upperJsonResponse : Response :=
  { status := 200, headers := [("Content-Type", "APPLICATION/JSON")] }

/-- A schedule witnessing a complete two-URL single-worker run. -/
def wSched : List PoolAction :=
  [PoolAction.pop 0, PoolAction.send 0, PoolAction.pop 0, PoolAction.send 0]

/-- The url field of a website_checker result is the input URL, in both arms
of the match. -/
theorem website_checker_url_eq (url : String) (timeout : Nat) (o : CallOutcome) :
    (website_checker url timeout o).url = url := rfl

/-- The retry loop returns a result carrying the URL it was called on. -/
theorem retryFrom_url_eq (url : String) (timeout : Nat) (net : Nat → CallOutcome) :
    ∀ (remaining attempt : Nat),
      (retryFrom url timeout net attempt remaining).1.url = url := by
  intro remaining
  induction remaining with
  | zero => intro attempt; rfl
  | succ r ih =>
      intro attempt
      cases h : (website_checker url timeout (net attempt)).isSuccess with
      | true => simp [retryFrom, h, website_checker_url_eq]
      | false => simp [retryFrom, h, ih (attempt + 1)]

/-- The retry wrapper returns a result carrying the URL it was called on. -/
theorem check_with_retry_url_eq (url : String) (timeout retries : Nat)
    (net : Nat → CallOutcome) :
    (check_with_retry url timeout retries net).1.url = url :=
  retryFrom_url_eq url timeout net retries 0

/-- When every attempt fails, the retry loop runs through all remaining
attempts, counts each, and returns the result of the last one. -/
theorem retryFrom_all_fail (url : String) (timeout : Nat)
    (net : Nat → CallOutcome)
    (hfail : ∀ i, (website_checker url timeout (net i)).isSuccess = false) :
    ∀ (remaining attempt : Nat),
      retryFrom url timeout net attempt remaining =
        (website_checker url timeout (net (attempt + remaining)), remaining + 1) := by
  intro remaining
  induction remaining with
  | zero => intro attempt; simp [retryFrom]
  | succ r ih =>
      intro attempt
      have harith : attempt + 1 + r = attempt + (r + 1) := by omega
      simp [retryFrom, hfail attempt, ih (attempt + 1), harith]

/-- C2: when the HTTP request completes before the timeout (the call effect is
Ok with some response), website_checker returns a Success outcome carrying
exactly the status code the server returned, whatever that code is (4xx and
5xx included); a completed request is never classified as Failure. -/
theorem website_checker_completed_is_success (url : String) (timeout : Nat)
    (resp : Response) (elapsed now : Nat) :
    (website_checker url timeout
        { call := Except.ok resp, elapsed := elapsed, now := now }).status =
        Except.ok resp.status ∧
      (website_checker url timeout
        { call := Except.ok resp, elapsed := elapsed, now := now }).isSuccess =
        true := by
  exact ⟨rfl, rfl⟩

/-- C10: every website_checker result carries the input URL in its url field,
and whenever the outcome is a Failure the headers_valid field is false. -/
theorem website_checker_url_and_failure_headers (url : String) (timeout : Nat)
    (o : CallOutcome) :
    (website_checker url timeout o).url = url ∧
      ((website_checker url timeout o).isSuccess = false →
        (website_checker url timeout o).headers_valid = false) := by
  refine ⟨rfl, ?_⟩
  cases hc : o.call with
  | ok resp =>
      intro h
      simp [website_checker, WebsiteStatus.isSuccess, hc] at h
  | error e =>
      intro h
      simp [website_checker, hc]

/-- C10 witness: at a concrete refused call, the result carries the input URL
and reports headers_valid = false. -/
theorem website_checker_url_and_failure_headers_witness :
    (website_checker "http://x" 5
        (CallOutcome.mk (Except.error "connection refused") 2 1)).url =
        "http://x" ∧
      (website_checker "http://x" 5
        (CallOutcome.mk (Except.error "connection refused") 2 1)).headers_valid =
        false :=
  ⟨(website_checker_url_and_failure_headers "http://x" 5
      (CallOutcome.mk (Except.error "connection refused") 2 1)).1,
    (website_checker_url_and_failure_headers "http://x" 5
      (CallOutcome.mk (Except.error "connection refused") 2 1)).2 rfl⟩

/-- C3: when every attempt fails, the retry wrapper issues exactly
max_retries + 1 attempts via the Checker; with max_retries = 0 it issues
exactly one attempt. -/
theorem retry_all_fail_attempt_count (url : String) (timeout retries : Nat)
    (net : Nat → CallOutcome)
    (hfail : ∀ i, (website_checker url timeout (net i)).isSuccess = false) :
    (check_with_retry url timeout retries net).2 = retries + 1 ∧
      (check_with_retry url timeout 0 net).2 = 1 := by
  constructor
  · rw [check_with_retry, retryFrom_all_fail url timeout net hfail retries 0]
  · rw [check_with_retry, retryFrom_all_fail url timeout net hfail 0 0]

/-- C3 witness: with every call refused, max_retries = 2 issues 3 attempts and
max_retries = 0 issues 1 attempt. -/
theorem retry_all_fail_attempt_count_witness :
    (check_with_retry "http://a" 5 2 (wNet "http://a")).2 = 3 ∧
      (check_with_retry "http://a" 5 0 (wNet "http://a")).2 = 1 :=
  ⟨(retry_all_fail_attempt_count "http://a" 5 2 (wNet "http://a")
      (fun i => rfl)).1,
    (retry_all_fail_attempt_count "http://a" 5 0 (wNet "http://a")
      (fun i => rfl)).2⟩

/-- C5: when every attempt fails, the retry wrapper returns the CheckResult of
the last attempt (attempt index max_retries), each retry having overwritten
the previously recorded failure result. -/
theorem retry_all_fail_returns_last (url : String) (timeout retries : Nat)
    (net : Nat → CallOutcome)
    (hfail : ∀ i, (website_checker url timeout (net i)).isSuccess = false) :
    (check_with_retry url timeout retries net).1 =
      website_checker url timeout (net retries) := by
  rw [check_with_retry, retryFrom_all_fail url timeout net hfail retries 0]
  simp

/-- C5 witness: with every call refused and max_retries = 2, the returned
result is the one produced at attempt index 2. -/
theorem retry_all_fail_returns_last_witness :
    (check_with_retry "http://a" 5 2 (wNet "http://a")).1 =
      website_checker "http://a" 5 (wNet "http://a" 2) :=
  retry_all_fail_returns_last "http://a" 5 2 (wNet "http://a") (fun i => rfl)

/-- C4: the retry wrapper stops on the first successful attempt; when attempt
0 fails and attempt 1 succeeds, with max_retries at least 1, exactly 2
attempts are issued and the success result of attempt 1 is returned. -/
theorem retry_early_success_two_attempts (url : String) (timeout retries : Nat)
    (net : Nat → CallOutcome)
    (h0 : (website_checker url timeout (net 0)).isSuccess = false)
    (h1 : (website_checker url timeout (net 1)).isSuccess = true)
    (hr : 1 ≤ retries) :
    check_with_retry url timeout retries net =
        (website_checker url timeout (net 1), 2) ∧
      (check_with_retry url timeout retries net).1.isSuccess = true := by
  obtain ⟨r, rfl⟩ : ∃ r, retries = r + 1 := ⟨retries - 1, by omega⟩
  have hmain : check_with_retry url timeout (r + 1) net =
      (website_checker url timeout (net 1), 2) := by
    rw [check_with_retry]
    cases r with
    | zero => simp [retryFrom, h0]
    | succ r2 => simp [retryFrom, h0, h1]
  exact ⟨hmain, by rw [hmain]; exact h1⟩

/-- C4 witness: with attempt 0 refused and attempt 1 completing with status
200, max_retries = 3 gives exactly 2 attempts and returns the success. -/
theorem retry_early_success_two_attempts_witness :
    check_with_retry "http://a" 5 3 wNetFlaky =
        (website_checker "http://a" 5 (wNetFlaky 1), 2) ∧
      (check_with_retry "http://a" 5 3 wNetFlaky).1.isSuccess = true :=
  retry_early_success_two_attempts "http://a" 5 3 wNetFlaky rfl rfl (by omega)

/-- C6 counterexample: on a response whose Content-Type value is
"APPLICATION/JSON", the code sets headers_valid = true (it lowercases the
value before the substring test, main.rs line 28), while the claimed predicate
- value literally contains the substring "application/json" - is false; so the
claimed iff fails at this response. -/
theorem validate_headers_uppercase_value_diverges :
    validate_headers upperJsonResponse = true ∧
      headersValidSpecLiteral upperJsonResponse = false ∧
      upperJsonResponse.header "Content-Type" = some "APPLICATION/JSON" ∧
      containsSub "APPLICATION/JSON" "application/json" = false := by
  refine ⟨by decide, by decide, by decide, by decide⟩

/-- C6 (amended): headers_valid is true iff a Content-Type header is present
(name matched case-insensitively) and its value, after lowercasing, contains
the substring "application/json"; in particular a value of
"application/json; charset=utf-8" gives true, and a missing header or a value
of "text/html" gives false. -/
theorem validate_headers_lowercased_iff (response : Response) :
    (validate_headers response = true ↔
      ∃ ct, response.header "Content-Type" = some ct ∧
        containsSub (lowerStr ct) "application/json" = true) ∧
      validate_headers (Response.mk 200
        [("Content-Type", "application/json; charset=utf-8")]) = true ∧
      validate_headers (Response.mk 200 []) = false ∧
      validate_headers (Response.mk 200 [("Content-Type", "text/html")]) =
        false := by
  refine ⟨?_, by decide, by decide, by decide⟩
  cases h : response.header "Content-Type" with
  | none => simp [validate_headers, h]
  | some ct => simp [validate_headers, h]

/-- Executing a schedule preserves any property preserved by single steps. -/
theorem foldl_step_preserves (net : String → Nat → CallOutcome)
    (timeout retries : Nat) (P : PoolState → Prop)
    (hstep : ∀ s a, P s → P (step net timeout retries s a)) :
    ∀ (sched : List PoolAction) (s : PoolState), P s →
      P (sched.foldl (step net timeout retries) s) := by
  intro sched
  induction sched with
  | nil => intro s hs; exact hs
  | cons a rest ih =>
      intro s hs
      exact ih (step net timeout retries s a) (hstep s a hs)

/-- Replacing the phase at a valid index changes the owned URLs by removing
the old phase contribution and adding the new one, up to permutation. -/
theorem busyUrls_set_perm :
    ∀ (ws : List WPhase) (i : Nat) (w v : WPhase), ws[i]? = some w →
      List.Perm (busyUrls (ws.set i v) ++ phaseUrl w)
        (phaseUrl v ++ busyUrls ws) := by
  intro ws
  induction ws with
  | nil => intro i w v h; simp at h
  | cons a t ih =>
      intro i w v h
      cases i with
      | zero =>
          simp at h
          subst h
          show List.Perm ((phaseUrl v ++ busyUrls t) ++ phaseUrl a)
            (phaseUrl v ++ (phaseUrl a ++ busyUrls t))
          rw [List.append_assoc]
          exact List.Perm.append_left (phaseUrl v) List.perm_append_comm
      | succ j =>
          simp at h
          have s1 := ih j w v h
          have s2 := List.Perm.append_left (phaseUrl a) s1
          have s3 : List.Perm (phaseUrl a ++ (phaseUrl v ++ busyUrls t))
              (phaseUrl v ++ (phaseUrl a ++ busyUrls t)) := by
            rw [← List.append_assoc, ← List.append_assoc]
            exact List.Perm.append_right _ List.perm_append_comm
          have s4 := s2.trans s3
          show List.Perm ((phaseUrl a ++ busyUrls (t.set j v)) ++ phaseUrl w)
            (phaseUrl v ++ (phaseUrl a ++ busyUrls t))
          rw [List.append_assoc]
          exact s4

/-- When no worker owns a URL, no index holds a busy phase. -/
theorem busyUrls_nil_no_busy :
    ∀ (ws : List WPhase) (wid : Nat) (u : String), busyUrls ws = [] →
      ws[wid]? = some (WPhase.busy u) → False := by
  intro ws
  induction ws with
  | nil => intro wid u h1 h2; simp at h2
  | cons a t ih =>
      intro wid u h1 h2
      have h1a : phaseUrl a = [] ∧ busyUrls t = [] := by
        simpa [busyUrls] using h1
      cases wid with
      | zero =>
          simp at h2
          subst h2
          simp [phaseUrl] at h1a
      | succ j =>
          simp at h2
          exact ih j u h1a.2 h2

/-- No worker of a freshly spawned pool owns a URL. -/
theorem busyUrls_replicate_idle :
    ∀ n : Nat, busyUrls (List.replicate n WPhase.idle) = [] := by
  intro n
  induction n with
  | zero => rfl
  | succ m ih => simpa [List.replicate_succ, busyUrls, phaseUrl] using ih

/-- With no workers, every action leaves the pool state unchanged. -/
theorem step_no_workers (net : String → Nat → CallOutcome)
    (timeout retries : Nat) (s : PoolState) (hw : s.workers = [])
    (a : PoolAction) : step net timeout retries s a = s := by
  cases a with
  | pop wid => simp [step, hw]
  | send wid => simp [step, hw]

/-- C9: invoked with worker_num = 0 on any URL list, monitor_websites spawns
no workers and every schedule leaves the initial state unchanged: the result
vector is empty and the input URLs are silently dropped (they stay in the
queue, neither processed, rejected, nor clamped to one worker). -/
theorem dispatcher_zero_workers_drops_input (net : String → Nat → CallOutcome)
    (urls : List String) (timeout retries : Nat) (sched : List PoolAction) :
    monitor_websites net urls 0 timeout retries sched = initState urls 0 ∧
      (monitor_websites net urls 0 timeout retries sched).results = [] ∧
      (monitor_websites net urls 0 timeout retries sched).queue = urls := by
  have hmain : monitor_websites net urls 0 timeout retries sched =
      initState urls 0 := by
    rw [monitor_websites]
    refine foldl_step_preserves net timeout retries
      (fun st => st = initState urls 0) ?_ sched (initState urls 0) rfl
    intro s a hs
    subst hs
    rw [step_no_workers net timeout retries _ rfl a]
  exact ⟨hmain, by rw [hmain]; rfl, by rw [hmain]; rfl⟩

/-- One step preserves the dequeue accounting: the logged URLs followed by
the pending queue always reconstruct the same list. -/
theorem step_popLog_queue (net : String → Nat → CallOutcome)
    (timeout retries : Nat) (s : PoolState) (a : PoolAction) :
    ((step net timeout retries s a).popLog.map Prod.snd)
        ++ (step net timeout retries s a).queue =
      (s.popLog.map Prod.snd) ++ s.queue := by
  cases a with
  | pop wid =>
      cases hw : s.workers[wid]? with
      | none => simp [step, hw]
      | some ph =>
          cases ph with
          | idle =>
              cases hq : s.queue with
              | nil => simp [step, hw, hq]
              | cons u rest => simp [step, hw, hq]
          | busy u => simp [step, hw]
          | done => simp [step, hw]
  | send wid =>
      cases hw : s.workers[wid]? with
      | none => simp [step, hw]
      | some ph => cases ph <;> simp [step, hw]

/-- C8: along every schedule, the logged dequeues followed by the remaining
queue reconstruct the input URL list exactly, so no queue element is ever
returned by two pops and none is lost; per-URL occurrence counts balance
(duplicates are delivered exactly as often as they occur) and the pending
queue is always a suffix of the input list (monotone draining). -/
theorem queue_exactly_once (net : String → Nat → CallOutcome)
    (urls : List String) (worker_num timeout retries : Nat)
    (sched : List PoolAction) :
    ((monitor_websites net urls worker_num timeout retries sched).popLog.map
          Prod.snd)
        ++ (monitor_websites net urls worker_num timeout retries sched).queue =
        urls ∧
      (∀ u : String,
        ((monitor_websites net urls worker_num timeout retries
              sched).popLog.map Prod.snd).count u
            + (monitor_websites net urls worker_num timeout retries
                sched).queue.count u =
          urls.count u) ∧
      ∃ t, t ++ (monitor_websites net urls worker_num timeout retries
          sched).queue = urls := by
  have hmain : ((monitor_websites net urls worker_num timeout retries
        sched).popLog.map Prod.snd)
      ++ (monitor_websites net urls worker_num timeout retries sched).queue =
      urls := by
    rw [monitor_websites]
    refine foldl_step_preserves net timeout retries
      (fun st => (st.popLog.map Prod.snd) ++ st.queue = urls) ?_ sched
      (initState urls worker_num) rfl
    intro s a hs
    rw [step_popLog_queue net timeout retries s a]
    exact hs
  refine ⟨hmain, ?_, ⟨_, hmain⟩⟩
  intro u
  have h2 := congrArg (fun l => List.count u l) hmain
  simpa [List.count_append] using h2

/-- One step preserves emptiness of the queue, the channel and the set of
owned URLs. -/
theorem step_empty_state (net : String → Nat → CallOutcome)
    (timeout retries : Nat) (s : PoolState) (a : PoolAction)
    (h : s.queue = [] ∧ s.results = [] ∧ busyUrls s.workers = []) :
    (step net timeout retries s a).queue = [] ∧
      (step net timeout retries s a).results = [] ∧
      busyUrls (step net timeout retries s a).workers = [] := by
  obtain ⟨hq, hr, hb⟩ := h
  cases a with
  | pop wid =>
      cases hw : s.workers[wid]? with
      | none => simp [step, hw, hq, hr, hb]
      | some ph =>
          cases ph with
          | idle =>
              have hperm := busyUrls_set_perm s.workers wid WPhase.idle
                WPhase.done hw
              simp [phaseUrl] at hperm
              have hnil : busyUrls (s.workers.set wid WPhase.done) = [] :=
                List.Perm.eq_nil (hperm.trans (by rw [hb]))
              simp [step, hw, hq, hr, hnil]
          | busy u => simp [step, hw, hq, hr, hb]
          | done => simp [step, hw, hq, hr, hb]
  | send wid =>
      cases hw : s.workers[wid]? with
      | none => simp [step, hw, hq, hr, hb]
      | some ph =>
          cases ph with
          | idle => simp [step, hw, hq, hr, hb]
          | busy u => exact absurd hw (fun hc =>
              busyUrls_nil_no_busy s.workers wid u hb hc)
          | done => simp [step, hw, hq, hr, hb]

/-- C7: on an empty URL list, every schedule of every pool leaves the result
set empty and the run complete: nothing is popped, nothing is sent, and every
state already satisfies the join condition, so the call returns an empty
result set without dividing by zero and without blocking. -/
theorem dispatcher_empty_input_empty_output (net : String → Nat → CallOutcome)
    (worker_num timeout retries : Nat) (sched : List PoolAction) :
    (monitor_websites net [] worker_num timeout retries sched).results = [] ∧
      complete (monitor_websites net [] worker_num timeout retries sched) := by
  have h := foldl_step_preserves net timeout retries
    (fun st => st.queue = [] ∧ st.results = [] ∧ busyUrls st.workers = [])
    (step_empty_state net timeout retries) sched (initState [] worker_num)
    ⟨rfl, rfl, busyUrls_replicate_idle worker_num⟩
  exact ⟨h.2.1, h.1, h.2.2⟩

/-- One step preserves the conservation of URLs across the channel contents,
the URLs owned by busy workers, and the pending queue. -/
theorem step_perm_inv (net : String → Nat → CallOutcome)
    (timeout retries : Nat) (urls : List String) (s : PoolState)
    (a : PoolAction)
    (h : List.Perm (s.results.map WebsiteStatus.url
        ++ (busyUrls s.workers ++ s.queue)) urls) :
    List.Perm ((step net timeout retries s a).results.map WebsiteStatus.url
        ++ (busyUrls (step net timeout retries s a).workers
          ++ (step net timeout retries s a).queue)) urls := by
  cases a with
  | pop wid =>
      cases hw : s.workers[wid]? with
      | none => simpa [step, hw] using h
      | some ph =>
          cases ph with
          | idle =>
              cases hq : s.queue with
              | nil =>
                  have hperm := busyUrls_set_perm s.workers wid WPhase.idle
                    WPhase.done hw
                  simp [phaseUrl] at hperm
                  have h2 : List.Perm
                      (s.results.map WebsiteStatus.url
                        ++ (busyUrls (s.workers.set wid WPhase.done)
                          ++ s.queue)) urls :=
                    (List.Perm.append_left _
                      (List.Perm.append_right _ hperm)).trans h
                  simpa [step, hw, hq] using h2
              | cons u rest =>
                  have hperm := busyUrls_set_perm s.workers wid WPhase.idle
                    (WPhase.busy u) hw
                  simp [phaseUrl] at hperm
                  have hinner : List.Perm
                      (busyUrls (s.workers.set wid (WPhase.busy u)) ++ rest)
                      (busyUrls s.workers ++ (u :: rest)) :=
                    (List.Perm.append_right rest hperm).trans
                      List.perm_middle.symm
                  have h2 : List.Perm
                      (s.results.map WebsiteStatus.url
                        ++ (busyUrls (s.workers.set wid (WPhase.busy u))
                          ++ rest)) urls :=
                    (List.Perm.append_left _ hinner).trans (by rw [← hq]; exact h)
                  simpa [step, hw, hq] using h2
          | busy u => simpa [step, hw] using h
          | done => simpa [step, hw] using h
  | send wid =>
      cases hw : s.workers[wid]? with
      | none => simpa [step, hw] using h
      | some ph =>
          cases ph with
          | idle => simpa [step, hw] using h
          | busy u =>
              have hperm := busyUrls_set_perm s.workers wid (WPhase.busy u)
                WPhase.idle hw
              simp [phaseUrl] at hperm
              have hinner : List.Perm
                  (([u] ++ busyUrls (s.workers.set wid WPhase.idle)) ++ s.queue)
                  (busyUrls s.workers ++ s.queue) :=
                List.Perm.append_right s.queue
                  (List.perm_append_comm.trans hperm)
              have h2 : List.Perm
                  (s.results.map WebsiteStatus.url
                    ++ (([u] ++ busyUrls (s.workers.set wid WPhase.idle))
                      ++ s.queue)) urls :=
                (List.Perm.append_left _ hinner).trans h
              have hu : (check_with_retry u timeout retries (net u)).1.url = u :=
                check_with_retry_url_eq u timeout retries (net u)
              simpa [step, hw, hu, List.append_assoc] using h2
          | done => simpa [step, hw] using h

/-- Worker 0 alone can drain any queue: running drainSched on the queue length
pops and sends every pending URL, leaving the worker pool as it was. -/
theorem drain_to_empty (net : String → Nat → CallOutcome)
    (timeout retries : Nat) :
    ∀ (q : List String) (t : List WPhase) (res : List WebsiteStatus)
      (log : List (Nat × String)),
      ∃ res2 log2,
        (drainSched q.length).foldl (step net timeout retries)
            (PoolState.mk q (WPhase.idle :: t) res log) =
          PoolState.mk [] (WPhase.idle :: t) res2 log2 := by
  intro q
  induction q with
  | nil => intro t res log; exact ⟨res, log, rfl⟩
  | cons u rest ih =>
      intro t res log
      obtain ⟨res2, log2, h⟩ := ih t
        (res ++ [(check_with_retry u timeout retries (net u)).1])
        (log ++ [(0, u)])
      have hstep2 : (drainSched (u :: rest).length).foldl
          (step net timeout retries)
          (PoolState.mk (u :: rest) (WPhase.idle :: t) res log) =
        (drainSched rest.length).foldl (step net timeout retries)
          (PoolState.mk rest (WPhase.idle :: t)
            (res ++ [(check_with_retry u timeout retries (net u)).1])
            (log ++ [(0, u)])) := by
        show (drainSched (rest.length + 1)).foldl (step net timeout retries)
            (PoolState.mk (u :: rest) (WPhase.idle :: t) res log) = _
        rw [drainSched, List.foldl_cons, List.foldl_cons]
        simp [step]
      exact ⟨res2, log2, hstep2.trans h⟩

/-- C1: for every input URL list and every pool with at least one worker,
every complete run of monitor_websites (queue drained and all owned URLs
delivered, the situation at the join barrier) returns exactly one result per
input URL: the result count equals the input length and the multiset of
result URLs equals the multiset of input URLs, duplicates counted separately;
moreover a complete run exists for every input. -/
theorem dispatcher_one_result_per_url (net : String → Nat → CallOutcome)
    (urls : List String) (worker_num timeout retries : Nat)
    (hw : 1 ≤ worker_num) :
    (∀ sched : List PoolAction,
        complete (monitor_websites net urls worker_num timeout retries sched) →
          (monitor_websites net urls worker_num timeout retries
              sched).results.length = urls.length ∧
            List.Perm
              ((monitor_websites net urls worker_num timeout retries
                  sched).results.map WebsiteStatus.url) urls) ∧
      ∃ sched : List PoolAction,
        complete (monitor_websites net urls worker_num timeout retries sched) := by
  constructor
  · intro sched hc
    have hinv := foldl_step_preserves net timeout retries
      (fun st => List.Perm (st.results.map WebsiteStatus.url
        ++ (busyUrls st.workers ++ st.queue)) urls)
      (step_perm_inv net timeout retries urls) sched
      (initState urls worker_num)
      (by simp [initState, busyUrls_replicate_idle worker_num])
    have hinv2 : List.Perm
        ((monitor_websites net urls worker_num timeout retries
            sched).results.map WebsiteStatus.url
          ++ (busyUrls (monitor_websites net urls worker_num timeout retries
              sched).workers
            ++ (monitor_websites net urls worker_num timeout retries
              sched).queue)) urls := hinv
    have hperm : List.Perm
        ((monitor_websites net urls worker_num timeout retries
          sched).results.map WebsiteStatus.url) urls := by
      rw [hc.1, hc.2] at hinv2
      simpa using hinv2
    refine ⟨?_, hperm⟩
    have hlen := hperm.length_eq
    simpa using hlen
  · obtain ⟨m, rfl⟩ : ∃ m, worker_num = m + 1 := ⟨worker_num - 1, by omega⟩
    obtain ⟨res2, log2, h⟩ := drain_to_empty net timeout retries urls
      (List.replicate m WPhase.idle) [] []
    refine ⟨drainSched urls.length, ?_⟩
    have hrun : monitor_websites net urls (m + 1) timeout retries
        (drainSched urls.length) =
        PoolState.mk [] (WPhase.idle :: List.replicate m WPhase.idle) res2
          log2 := by
      rw [monitor_websites, initState, List.replicate_succ]
      exact h
    rw [hrun]
    exact ⟨rfl, by
      have := busyUrls_replicate_idle (m + 1)
      simpa [List.replicate_succ] using this⟩

/-- C1 witness: a concrete complete run of two URLs with one worker yields
exactly two results whose URLs are a permutation of the input. -/
theorem dispatcher_one_result_per_url_witness :
    (monitor_websites wNet ["a", "b"] 1 5 0 wSched).results.length = 2 ∧
      List.Perm
        ((monitor_websites wNet ["a", "b"] 1 5 0 wSched).results.map
          WebsiteStatus.url) ["a", "b"] :=
  (dispatcher_one_result_per_url wNet ["a", "b"] 1 5 0 (by omega)).1 wSched
    ⟨rfl, rfl⟩
